import Mathlib

/-
Verification development for a small recursive ray tracer (CSE386 project).
The geometric and shading routines of the C++ sources are embedded shallowly
over the real numbers: double arithmetic is modelled by exact real arithmetic,
glm vector operations by componentwise operations on a three component vector
type, and the in-out reference parameters of the C++ by functions from the
incoming record to the outgoing record.
-/

noncomputable section

/-- Three component vector of reals, standing for glm dvec3 (and for color,
which is an alias of dvec3 in the sources). -/
@[ext]
structure Vec3 where
  x : ℝ
  y : ℝ
  z : ℝ

namespace Vec3

instance : Add Vec3 := ⟨fun a b => ⟨a.x + b.x, a.y + b.y, a.z + b.z⟩⟩

instance : Sub Vec3 := ⟨fun a b => ⟨a.x - b.x, a.y - b.y, a.z - b.z⟩⟩

instance : Neg Vec3 := ⟨fun a => ⟨-a.x, -a.y, -a.z⟩⟩

instance : SMul ℝ Vec3 := ⟨fun r a => ⟨r * a.x, r * a.y, r * a.z⟩⟩

instance : Mul Vec3 := ⟨fun a b => ⟨a.x * b.x, a.y * b.y, a.z * b.z⟩⟩

instance : Zero Vec3 := ⟨⟨0, 0, 0⟩⟩

/-- Dot product, standing for glm dot. -/
def dot (a b : Vec3) : ℝ := a.x * b.x + a.y * b.y + a.z * b.z

/-- Cross product, standing for glm cross. -/
def cross (a b : Vec3) : Vec3 :=
  ⟨a.y * b.z - a.z * b.y, a.z * b.x - a.x * b.z, a.x * b.y - a.y * b.x⟩

/-- Euclidean length, standing for glm length. -/
def length (a : Vec3) : ℝ := Real.sqrt (dot a a)

/-- Normalization, standing for glm normalize, which divides a vector by its
length.  On the zero vector the C++ produces NaN components; the embedding
yields the zero vector there (division by zero), a corner no claim exercises. -/
def normalize (a : Vec3) : Vec3 := (1 / length a) • a

/-- Distance between two points, standing for glm distance. -/
def distance (a b : Vec3) : ℝ := length (a - b)

/-- Componentwise clamp against scalar bounds, standing for
glm clamp applied to a vector with scalar limits. -/
def clampScalar (v : Vec3) (lo hi : ℝ) : Vec3 :=
  ⟨min (max v.x lo) hi, min (max v.y lo) hi, min (max v.z lo) hi⟩

/-- Reflection of an incident vector about a normal, standing for glm reflect:
I - 2 dot(N, I) N. -/
def reflect (i n : Vec3) : Vec3 := i - (2 * dot n i) • n

/-- Refraction direction, standing for glm refract: with
k = 1 - eta^2 (1 - dot(N,I)^2), the zero vector when k is negative and
eta I - (eta dot(N,I) + sqrt k) N otherwise. -/
def refract (i n : Vec3) (eta : ℝ) : Vec3 :=
  let d := dot n i
  let k := 1 - eta * eta * (1 - d * d)
  if k < 0 then ⟨0, 0, 0⟩ else eta • i - (eta * d + Real.sqrt k) • n

end Vec3

/-- Color values are dvec3 in the sources. -/
abbrev Color := Vec3

/-- The zero color, standing for the constant black of the sources. -/
def black : Color := ⟨0, 0, 0⟩

/-- The no-hit sentinel FLT_MAX, the largest finite value of a 32 bit float,
exactly (2^24 - 1) * 2^104. -/
def FLT_MAX : ℝ := (2 ^ 24 - 1) * 2 ^ 104

/-- Modelled from the spec: the surface-acne bias constant EPSILON of defs.h,
whose implementation file is not among the sources.  The spec describes it as
a small positive bias; the customary value of one thousandth is used. -/
def EPSILON : ℝ := 1 / 1000

/-- Ray as an origin point plus a direction vector.  Modelled from the spec
for the missing defs.h: the direction is not necessarily normalized by
contract, so the constructor stores it untouched. -/
structure Ray where
  origin : Vec3
  dir : Vec3

/-- Point at parameter t along a ray, standing for Ray::getPoint. -/
def Ray.getPoint (r : Ray) (t : ℝ) : Vec3 := r.origin + t • r.dir

/-- Base hit record carrying the intersection parameter, intercept point, and
surface normal, as mutated through a HitRecord reference in the C++. -/
structure HitRecord where
  t : ℝ
  interceptPt : Vec3
  normal : Vec3

/-- Modelled from the spec: a freshly default-constructed HitRecord (the
declaration lives in the missing ishape.h) carries the no-hit sentinel for t. -/
def freshHitRecord : HitRecord := ⟨FLT_MAX, ⟨0, 0, 0⟩, ⟨0, 1, 0⟩⟩

/-- Ten coefficients of the general quadric equation, from ishape. -/
structure QuadricParameters where
  A : ℝ
  B : ℝ
  C : ℝ
  D : ℝ
  E : ℝ
  F : ℝ
  G : ℝ
  H : ℝ
  I : ℝ
  J : ℝ

namespace QuadricParameters

/-- Factory for a cylinder along the y axis, from QuadricParameters::cylinderYQParams. -/
def cylinderYQParams (R : ℝ) : QuadricParameters :=
  ⟨1 / (R * R), 0, 1 / (R * R), 0, 0, 0, 0, 0, 0, -1⟩

/-- Factory for a sphere centered on the origin, from QuadricParameters::sphereQParams. -/
def sphereQParams (R : ℝ) : QuadricParameters :=
  ⟨1, 1, 1, 0, 0, 0, 0, 0, 0, -(R * R)⟩

/-- Factory for an ellipsoid, from QuadricParameters::ellipsoidQParams. -/
def ellipsoidQParams (sz : Vec3) : QuadricParameters :=
  ⟨1 / (sz.x * sz.x), 1 / (sz.y * sz.y), 1 / (sz.z * sz.z), 0, 0, 0, 0, 0, 0, -1⟩

/-- Factory for a cone along the y axis, from QuadricParameters::coneYQParams. -/
def coneYQParams (R Hh : ℝ) : QuadricParameters :=
  ⟨(Hh ^ 2) / (R ^ 2), -1, (Hh ^ 2) / (R ^ 2), 0, 0, 0, 0, 0, 0, 0⟩

end QuadricParameters

/-- Modelled from the spec: the quadratic-root solver declared in utilities.h,
whose implementation file is not among the sources.  Per the spec it solves by
the standard discriminant formula and yields the real roots sorted ascending
(none for a negative discriminant, one for a zero discriminant); a degenerate
leading coefficient falls back to the linear solution. -/
def quadratic (A B C : ℝ) : List ℝ :=
  if A = 0 then (if B = 0 then [] else [-C / B])
  else
    let disc := B * B - 4 * A * C
    if disc < 0 then []
    else if disc = 0 then [-B / (2 * A)]
    else
      let r1 := (-B - Real.sqrt disc) / (2 * A)
      let r2 := (-B + Real.sqrt disc) / (2 * A)
      if r1 ≤ r2 then [r1, r2] else [r2, r1]

/-- Plane given by a point and a stored normal, from ishape. -/
structure IPlane where
  a : Vec3
  n : Vec3

/-- Two argument IPlane constructor: the normal argument is normalized before
being stored. -/
def IPlane.make (point normal : Vec3) : IPlane := ⟨point, Vec3.normalize normal⟩

/-- Three point IPlane constructor: stores the second vertex and the
normalized cross product cross(p2 - p1, p0 - p1). -/
def IPlane.make3 (p0 p1 p2 : Vec3) : IPlane :=
  ⟨p1, Vec3.normalize (Vec3.cross (p2 - p1) (p0 - p1))⟩

/-- Plane intersection from IPlane::findClosestIntersection: no intersection
when the ray is parallel (the t field is set to the sentinel), a hit for any
solved parameter t that is at least zero, and the incoming record left
untouched for a negative parameter. -/
def IPlane.findClosestIntersection (p : IPlane) (ray : Ray) (hit : HitRecord) : HitRecord :=
  let bottom := Vec3.dot ray.dir p.n
  if bottom = 0 then { hit with t := FLT_MAX }
  else
    let t := Vec3.dot (p.a - ray.origin) p.n / bottom
    if t ≥ 0 then ⟨t, ray.getPoint t, p.n⟩ else hit

/-- Disk with center, stored normal, and radius, from ishape. -/
structure IDisk where
  center : Vec3
  n : Vec3
  radius : ℝ

/-- IDisk constructor: normalizes the normal argument. -/
def IDisk.make (pos normal : Vec3) (rad : ℝ) : IDisk := ⟨pos, Vec3.normalize normal, rad⟩

/-- Disk intersection from IDisk::findClosestIntersection: intersect the
supporting plane (built through the normalizing IPlane constructor exactly as
the source does), then reject the hit when the intercept lies farther than the
radius from the center, resetting only the t field. -/
def IDisk.findClosestIntersection (d : IDisk) (ray : Ray) (hit : HitRecord) : HitRecord :=
  let hit1 := (IPlane.make d.center d.n).findClosestIntersection ray { hit with t := FLT_MAX }
  if hit1.t = FLT_MAX then hit1
  else if Vec3.distance hit1.interceptPt d.center > d.radius then { hit1 with t := FLT_MAX }
  else hit1

/-- General quadric surface with its parameters and position, from ishape. -/
structure IQuadricSurface where
  qParams : QuadricParameters
  center : Vec3

namespace IQuadricSurface

/-- Coefficients of the scalar quadratic in t obtained by substituting the ray
into the quadric equation, from IQuadricSurface::computeAqBqCq. -/
def computeAqBqCq (s : IQuadricSurface) (ray : Ray) : ℝ × ℝ × ℝ :=
  let Ro := ray.origin - s.center
  let Rd := ray.dir
  let q := s.qParams
  let Aq := q.A * (Rd.x * Rd.x) + q.B * (Rd.y * Rd.y) + q.C * (Rd.z * Rd.z) +
    q.D * (Rd.x * Rd.y) + q.E * (Rd.x * Rd.z) + q.F * (Rd.y * Rd.z)
  let Bq := 2 * q.A * Ro.x * Rd.x + 2 * q.B * Ro.y * Rd.y + 2 * q.C * Ro.z * Rd.z +
    q.D * (Ro.x * Rd.y + Ro.y * Rd.x) + q.E * (Ro.x * Rd.z + Ro.z * Rd.x) +
    q.F * (Ro.y * Rd.z + Ro.z * Rd.y) + q.G * Rd.x + q.H * Rd.y + q.I * Rd.z
  let Cq := q.A * (Ro.x * Ro.x) + q.B * (Ro.y * Ro.y) + q.C * (Ro.z * Ro.z) +
    q.D * (Ro.x * Ro.y) + q.E * (Ro.x * Ro.z) + q.F * (Ro.y * Ro.z) +
    q.G * Ro.x + q.H * Ro.y + q.I * Ro.z + q.J
  (Aq, Bq, Cq)

/-- Analytic surface normal as the normalized gradient of the quadric
function, from IQuadricSurface::normal. -/
def normal (s : IQuadricSurface) (P : Vec3) : Vec3 :=
  let q := s.qParams
  let pt := P - s.center
  Vec3.normalize ⟨2 * q.A * pt.x + q.D * pt.y + q.E * pt.z + q.G,
    2 * q.B * pt.y + q.D * pt.x + q.F * pt.z + q.H,
    2 * q.C * pt.z + q.E * pt.x + q.F * pt.y + q.I⟩

/-- Intersections in front of the viewer from IQuadricSurface::findIntersections:
the roots of the scalar quadratic are scanned in the order the solver returns
them and every strictly positive root produces a hit record with the point at
that parameter and the quadric normal there. -/
def findIntersections (s : IQuadricSurface) (ray : Ray) : List HitRecord :=
  let c := s.computeAqBqCq ray
  (quadratic c.1 c.2.1 c.2.2).filterMap (fun t =>
    if t > 0 then
      some ⟨t, ray.origin + t • ray.dir, s.normal (ray.origin + t • ray.dir)⟩
    else none)

/-- Nearest quadric intersection from IQuadricSurface::findClosestIntersection:
the t field is reset to the sentinel, then the first reported root with a
positive parameter is taken (the source reexamines positivity although the
reported roots are positive by construction), its normal recomputed. -/
def findClosestIntersection (s : IQuadricSurface) (ray : Ray) (hitIn : HitRecord) :
    HitRecord :=
  let hit := { hitIn with t := FLT_MAX }
  match s.findIntersections ray with
  | [] => hit
  | [h0] => if h0.t > 0 then ⟨h0.t, h0.interceptPt, s.normal h0.interceptPt⟩ else hit
  | h0 :: h1 :: _ =>
      if h0.t > 0 then ⟨h0.t, h0.interceptPt, s.normal h0.interceptPt⟩
      else if h1.t > 0 then ⟨h1.t, h1.interceptPt, s.normal h1.interceptPt⟩
      else hit

end IQuadricSurface

/-- Finite cylinder along the y axis with center, radius and length, from
ishape; its quadric parameters are cylinderYQParams of the radius. -/
structure ICylinderY where
  center : Vec3
  radius : ℝ
  length : ℝ

/-- The quadric surface underlying a y cylinder. -/
def ICylinderY.asQuadric (c : ICylinderY) : IQuadricSurface :=
  ⟨QuadricParameters.cylinderYQParams c.radius, c.center⟩

/-- Helper mirroring the scan loop of ICylinderY::findClosestIntersection:
the first listed root whose intercept has its y coordinate strictly below
center.y + length/2 and strictly above center.y - length/2 replaces the hit;
when none qualifies the incoming record is left untouched. -/
def ICylinderY.scanHits (c : ICylinderY) : List HitRecord → HitRecord → HitRecord
  | [], hit => hit
  | hr :: rest, hit =>
      if hr.interceptPt.y < c.center.y + c.length / 2 ∧
          c.center.y - c.length / 2 < hr.interceptPt.y then hr
      else c.scanHits rest hit

/-- Clipped cylinder intersection from ICylinderY::findClosestIntersection:
with no quadric root the t field becomes the sentinel, otherwise the roots are
scanned in ascending order for the first one inside the open y extent. -/
def ICylinderY.findClosestIntersection (c : ICylinderY) (ray : Ray) (hitIn : HitRecord) :
    HitRecord :=
  match c.asQuadric.findIntersections ray with
  | [] => { hitIn with t := FLT_MAX }
  | h0 :: rest => c.scanHits (h0 :: rest) hitIn

/-- Cone along the y axis, from ishape. -/
structure IConeY where
  center : Vec3
  radius : ℝ
  height : ℝ

/-- Cone intersection from IConeY::findClosestIntersection: the first reported
quadric root is taken wholesale, with no clipping of the extent. -/
def IConeY.findClosestIntersection (c : IConeY) (ray : Ray) (hitIn : HitRecord) :
    HitRecord :=
  let q : IQuadricSurface := ⟨QuadricParameters.coneYQParams c.radius c.height, c.center⟩
  match q.findIntersections ray with
  | [] => { hitIn with t := FLT_MAX }
  | h0 :: _ => h0

/-- Closed cylinder along the y axis: an open cylinder with two disk caps, the
caps being built by the constructor from the center, length, and radius with
normals up and down respectively (IClosedCylinderY constructor). -/
structure IClosedCylinderY where
  center : Vec3
  radius : ℝ
  length : ℝ

/-- The open cylinder part of a closed cylinder. -/
def IClosedCylinderY.asCylinder (cc : IClosedCylinderY) : ICylinderY :=
  ⟨cc.center, cc.radius, cc.length⟩

/-- The top cap disk, as built in the IClosedCylinderY constructor. -/
def IClosedCylinderY.topDisk (cc : IClosedCylinderY) : IDisk :=
  IDisk.make ⟨cc.center.x, cc.center.y + cc.length / 2, cc.center.z⟩ ⟨0, 1, 0⟩ cc.radius

/-- The bottom cap disk, as built in the IClosedCylinderY constructor. -/
def IClosedCylinderY.bottomDisk (cc : IClosedCylinderY) : IDisk :=
  IDisk.make ⟨cc.center.x, cc.center.y - cc.length / 2, cc.center.z⟩ ⟨0, -1, 0⟩ cc.radius

/-- Closed cylinder intersection from IClosedCylinderY::findClosestIntersection:
the t field starts at the sentinel, the open cylinder and the two caps are
evaluated independently on fresh records, and the record with the strictly
smallest t replaces the current one in turn.  The fresh sub-records carry the
sentinel t, modelling the default HitRecord of the missing header. -/
def IClosedCylinderY.findClosestIntersection (cc : IClosedCylinderY) (ray : Ray)
    (hitIn : HitRecord) : HitRecord :=
  let h0 := cc.asCylinder.findClosestIntersection ray freshHitRecord
  let h1 := cc.topDisk.findClosestIntersection ray freshHitRecord
  let h2 := cc.bottomDisk.findClosestIntersection ray freshHitRecord
  let hit := { hitIn with t := FLT_MAX }
  let hit := if h0.t < hit.t then h0 else hit
  let hit := if h1.t < hit.t then h1 else hit
  if h2.t < hit.t then h2 else hit

/-- Modelled from the spec, for the missing utilities.cpp: the area of the
parallelogram spanned by two vectors is the length of their cross product. -/
def areaOfParallelogram (v1 v2 : Vec3) : ℝ := Vec3.length (Vec3.cross v1 v2)

/-- Modelled from the spec, for the missing utilities.cpp: the area of a
triangle is half the area of the parallelogram spanned by two of its sides. -/
def areaOfTriangle (p1 p2 p3 : Vec3) : ℝ := areaOfParallelogram (p2 - p1) (p3 - p1) / 2

/-- Modelled from the spec, for the missing utilities.cpp: two doubles are
approximately equal when they differ by less than the tolerance EPSILON. -/
def approximatelyEqual (a b : ℝ) : Prop := |a - b| < EPSILON

instance (a b : ℝ) : Decidable (approximatelyEqual a b) := by
  unfold approximatelyEqual; infer_instance

/-- Unit normal from three counterclockwise points, from normalFrom3Points. -/
def normalFrom3Points (pt0 pt1 pt2 : Vec3) : Vec3 :=
  Vec3.normalize (Vec3.cross (pt1 - pt0) (pt2 - pt0))

/-- Triangle given by its three vertices, from ishape. -/
structure ITriangle where
  a : Vec3
  b : Vec3
  c : Vec3

/-- Barycentric area inside test from ITriangle::inside: the point is inside
when the three sub-triangle areas sum to the area of the triangle itself,
within the approximate equality tolerance. -/
def ITriangle.inside (tr : ITriangle) (pt : Vec3) : Bool :=
  let thisArea := areaOfTriangle tr.a tr.b tr.c
  let area1 := areaOfTriangle tr.a tr.b pt
  let area2 := areaOfTriangle tr.a pt tr.c
  let area3 := areaOfTriangle pt tr.b tr.c
  decide (approximatelyEqual thisArea (area1 + area2 + area3))

/-- Triangle intersection from ITriangle::findClosestIntersection: intersect
the supporting plane built from the three vertices, then reset the t field
when the intercept is not inside the triangle. -/
def ITriangle.findClosestIntersection (tr : ITriangle) (ray : Ray) (hit : HitRecord) :
    HitRecord :=
  let plane := IPlane.make3 tr.a tr.b tr.c
  let hit1 := plane.findClosestIntersection ray hit
  if hit1.t < FLT_MAX ∧ ¬ (tr.inside hit1.interceptPt = true) then { hit1 with t := FLT_MAX }
  else hit1

/-- Texture coordinates of a triangle point, from ITriangle::getTexCoords. -/
def ITriangle.getTexCoords (tr : ITriangle) (pt : Vec3) : ℝ × ℝ :=
  let thisArea := areaOfTriangle tr.a tr.b tr.c
  let BCP := areaOfTriangle pt tr.b tr.c
  let CAP := areaOfTriangle tr.a pt tr.c
  (BCP / thisArea, CAP / thisArea)

/-- Closed sum of the implicit shape variants of the sources, dispatched in
place of the C++ virtual calls. -/
inductive Shape
  | plane (p : IPlane)
  | disk (d : IDisk)
  | quadric (q : IQuadricSurface)
  | cylinderY (c : ICylinderY)
  | coneY (c : IConeY)
  | closedCylinderY (c : IClosedCylinderY)
  | triangle (t : ITriangle)

/-- ISphere constructor: a quadric surface with sphere parameters. -/
def ISphere.make (position : Vec3) (radius : ℝ) : Shape :=
  Shape.quadric ⟨QuadricParameters.sphereQParams radius, position⟩

/-- Virtual dispatch of findClosestIntersection across the shape variants. -/
def Shape.findClosestIntersection (s : Shape) (ray : Ray) (hit : HitRecord) : HitRecord :=
  match s with
  | .plane p => p.findClosestIntersection ray hit
  | .disk d => d.findClosestIntersection ray hit
  | .quadric q => q.findClosestIntersection ray hit
  | .cylinderY c => c.findClosestIntersection ray hit
  | .coneY c => c.findClosestIntersection ray hit
  | .closedCylinderY c => c.findClosestIntersection ray hit
  | .triangle t => t.findClosestIntersection ray hit

/-- Virtual dispatch of getTexCoords.  The base class default is (0, 0); the
triangle override is implemented from the sources.  The disk, sphere, and
cylinder overrides of the sources depend on helper routines (frame basis
construction, azimuth and elevation, directionInRadians) whose implementation
files are not among the sources, and no claim depends on texture coordinates,
so those variants are modelled by the documented base default. -/
def Shape.getTexCoords (s : Shape) (pt : Vec3) : ℝ × ℝ :=
  match s with
  | .triangle t => t.getTexCoords pt
  | _ => (0, 0)

/-- Material snapshot: ambient, diffuse, and specular colors, shininess,
legacy alpha, and the dielectric flag with its refraction index.  Modelled
from the spec for the missing material header, with exactly the fields the
sources read. -/
structure Material where
  ambient : Color
  diffuse : Color
  specular : Color
  shininess : ℝ
  alpha : ℝ
  isDielectric : Bool
  dielectricRefractionIndex : ℝ

/-- Default material used in freshly constructed hit records. -/
def defaultMaterial : Material := ⟨black, black, black, 0, 1, false, 1⟩

/-- Ray status flag distinguishing entering and leaving a volume, from the
spec data model for the missing header. -/
inductive RayStatus
  | ENTERING
  | LEAVING
deriving DecidableEq

/-- Texture collaborator: getPixelUV as a function from (u, v) to a color. -/
def Texture : Type := ℝ → ℝ → Color

/-- Opaque-surface hit record: the base geometric fields plus the material
snapshot, optional texture pointer with (u, v), and the ray status flag. -/
structure OpaqueHitRecord where
  t : ℝ
  interceptPt : Vec3
  normal : Vec3
  material : Material
  texture : Option Texture
  u : ℝ
  v : ℝ
  rayStatus : RayStatus

/-- Modelled from the spec: a freshly default-constructed OpaqueHitRecord
carries the no-hit sentinel for t; the remaining fields take inert defaults
(nothing in the sources ever assigns rayStatus). -/
def freshOpaqueHitRecord : OpaqueHitRecord :=
  ⟨FLT_MAX, ⟨0, 0, 0⟩, ⟨0, 1, 0⟩, defaultMaterial, none, 0, 0, RayStatus.ENTERING⟩

/-- Visible shape: an implicit shape paired with a material and an optional
texture image, from VisibleIShape. -/
structure VisibleIShape where
  shape : Shape
  material : Material
  texture : Option Texture

/-- Wrapper intersection from VisibleIShape::findClosestIntersection: the t
field is reset to the sentinel and the shape geometry is queried; on a hit the
material and texture are copied in, texture coordinates are fetched when a
texture is present, and the normal is flipped when it points along the ray
direction. -/
def VisibleIShape.findClosestIntersection (vs : VisibleIShape) (ray : Ray)
    (hitIn : OpaqueHitRecord) : OpaqueHitRecord :=
  let hr := vs.shape.findClosestIntersection ray
    ⟨FLT_MAX, hitIn.interceptPt, hitIn.normal⟩
  let out : OpaqueHitRecord :=
    { hitIn with t := hr.t, interceptPt := hr.interceptPt, normal := hr.normal }
  if hr.t < FLT_MAX then
    let uv := match vs.texture with
      | some _ => vs.shape.getTexCoords hr.interceptPt
      | none => (out.u, out.v)
    let out := { out with
      material := vs.material
      texture := vs.texture
      u := uv.1
      v := uv.2 }

    if Vec3.dot ray.dir out.normal > 0 then { out with normal := -out.normal } else out
  else out

/-- Scene-wide nearest intersection from the static
VisibleIShape::findIntersection: a fresh record with the sentinel t is
replaced by each per-surface result whose t is strictly smaller than the
current one, scanning the surfaces in order. -/
def VisibleIShape.findIntersection (ray : Ray) (surfaces : List VisibleIShape) :
    OpaqueHitRecord :=
  surfaces.foldl (fun theHit surface =>
    let thisHit := surface.findClosestIntersection ray freshOpaqueHitRecord
    if thisHit.t < theHit.t then thisHit else theHit)
    { freshOpaqueHitRecord with t := FLT_MAX }

/-- Camera frame collaborator.  Modelled from the spec: an origin together
with a local orthonormal basis, converting frame coordinates to world
coordinates affinely. -/
structure Frame where
  origin : Vec3
  ax : Vec3
  ay : Vec3
  az : Vec3

/-- Frame to world conversion used for camera-relative lights.  Modelled from
the spec for the missing camera sources. -/
def Frame.frameCoordsToGlobalCoords (f : Frame) (p : Vec3) : Vec3 :=
  f.origin + p.x • f.ax + p.y • f.ay + p.z • f.az

/-- Attenuation parameters.  Modelled from the spec: the factor is the
reciprocal of a polynomial in the distance. -/
structure LightATParams where
  kc : ℝ
  kl : ℝ
  kq : ℝ

/-- Attenuation factor at a distance, modelled from the spec. -/
def LightATParams.factor (p : LightATParams) (dist : ℝ) : ℝ :=
  1 / (p.kc + p.kl * dist + p.kq * dist * dist)

/-- Ambient term from ambientColor in light.cpp. -/
def ambientColor (mat lightColor : Color) : Color := mat * lightColor

/-- Diffuse term from diffuseColor in light.cpp. -/
def diffuseColor (mat lightColor : Color) (l n : Vec3) : Color :=
  max (Vec3.dot l n) 0 • (mat * lightColor)

/-- Specular term from specularColor in light.cpp. -/
def specularColor (mat lightColor : Color) (shininess : ℝ) (r v : Vec3) : Color :=
  Real.rpow (max 0 (Vec3.dot r v)) shininess • (mat * lightColor)

/-- Total single-light color from totalColor in light.cpp: ambient plus the
attenuated sum of diffuse and specular, clamped componentwise to the unit
interval. -/
def totalColor (mat : Material) (lightColor : Color) (v n lightPos intersectionPt : Vec3)
    (attenuationOn : Bool) (ATparams : LightATParams) : Color :=
  let lightVector := lightPos - intersectionPt
  let lightVectorNorm := Vec3.normalize lightVector
  let reflectionVector := Vec3.reflect (-lightVectorNorm) n
  let ambientReflection := ambientColor mat.ambient lightColor
  let diffuseReflection := diffuseColor mat.diffuse lightColor lightVectorNorm n
  let specularReflection := specularColor mat.specular lightColor mat.shininess
    reflectionVector v
  let attenuationFactor := if attenuationOn then ATparams.factor (Vec3.length lightVector)
    else 1
  Vec3.clampScalar
    (ambientReflection + attenuationFactor • (diffuseReflection + specularReflection)) 0 1

/-- Positional light source, from light.cpp. -/
structure PositionalLight where
  pos : Vec3
  lightColor : Color
  isOn : Bool
  isTiedToWorld : Bool
  attenuationIsTurnedOn : Bool
  atParams : LightATParams

/-- World position of a light from PositionalLight::actualPosition: the raw
position for a world-tied light, otherwise the stored position interpreted in
the eye frame. -/
def PositionalLight.actualPosition (l : PositionalLight) (eyeFrame : Frame) : Vec3 :=
  if l.isTiedToWorld then l.pos else eyeFrame.frameCoordsToGlobalCoords l.pos

/-- Illumination from PositionalLight::illuminate: black when the light is
off, the ambient term alone when in shadow, and otherwise the total Phong
color with the view vector toward the eye frame origin. -/
def PositionalLight.illuminate (l : PositionalLight) (interceptWorldCoords normal : Vec3)
    (material : Material) (eyeFrame : Frame) (inShadow : Bool) : Color :=
  if ¬ (l.isOn = true) then black
  else if inShadow = true then ambientColor material.ambient l.lightColor
  else
    let viewVector := Vec3.normalize (eyeFrame.origin - interceptWorldCoords)
    let lightPos := l.actualPosition eyeFrame
    totalColor material l.lightColor viewVector normal lightPos interceptWorldCoords
      l.attenuationIsTurnedOn l.atParams

/-- Shadow query from PositionalLight::pointIsInAShadow: a feeler ray starts
at the intercept biased by EPSILON along the normal and points along the
unnormalized vector toward the raw light position; the point is lit exactly
when the nearest opaque intersection parameter exceeds the distance to the
light.  The eye frame argument is accepted and ignored, as in the source. -/
def PositionalLight.pointIsInAShadow (l : PositionalLight) (intercept normal : Vec3)
    (objects : List VisibleIShape) (_eyeFrame : Frame) : Bool :=
  let lightVector := l.pos - intercept
  let distToLight := Vec3.length lightVector
  let shadowFeeler : Ray := ⟨intercept + EPSILON • normal, lightVector⟩
  let shadowHit := VisibleIShape.findIntersection shadowFeeler objects
  if shadowHit.t > distToLight then false else true

/-- Light source variants: positional, and spot extending positional with a
direction and field of view. -/
inductive LightSource
  | positional (l : PositionalLight)
  | spot (l : PositionalLight) (spotDir : Vec3) (fov : ℝ)

/-- The on and off flag of a light source. -/
def LightSource.isOn : LightSource → Bool
  | .positional l => l.isOn
  | .spot l _ _ => l.isOn

/-- Virtual illuminate dispatch: the positional implementation, and the
SpotLight::illuminate stub of the sources, which returns black. -/
def LightSource.illuminate (ls : LightSource) (interceptWorldCoords normal : Vec3)
    (material : Material) (eyeFrame : Frame) (inShadow : Bool) : Color :=
  match ls with
  | .positional l => l.illuminate interceptWorldCoords normal material eyeFrame inShadow
  | .spot _ _ _ => black

/-- Shadow dispatch: both variants inherit PositionalLight::pointIsInAShadow. -/
def LightSource.pointIsInAShadow (ls : LightSource) (intercept normal : Vec3)
    (objects : List VisibleIShape) (eyeFrame : Frame) : Bool :=
  match ls with
  | .positional l => l.pointIsInAShadow intercept normal objects eyeFrame
  | .spot l _ _ => l.pointIsInAShadow intercept normal objects eyeFrame

/-- Scene container: opaque objects, lights, and the camera frame standing
for camera.getFrame(). -/
structure IScene where
  opaqueObjs : List VisibleIShape
  lights : List LightSource
  eyeFrame : Frame

/-- Ray tracer state: the default (clear) color. -/
structure RayTracer where
  defaultColor : Color

/-- Fresnel reflectance from the file-static fresnel of raytracer.cpp.  The
source calls glm clamp with the value and bound arguments transposed, so the
incidence cosine is min(1, dot(i, n)); total internal reflection returns one,
and otherwise the average of the squared parallel and perpendicular
polarization terms is returned. -/
def fresnel (i n : Vec3) (etai etat : ℝ) : ℝ :=
  let cosi := min 1 (Vec3.dot i n)
  let sint := etai / etat * Real.sqrt (max 0 (1 - cosi * cosi))
  if sint ≥ 1 then 1
  else
    let cost := Real.sqrt (max 0 (1 - sint * sint))
    let cosiA := |cosi|
    let Rs := (etat * cosiA - etai * cost) / (etai * cost + etat * cosiA)
    let Rp := (etai * cosiA - etat * cost) / (etat * cost + etai * cosiA)
    (Rs * Rs + Rp * Rp) / 2

/-- Recursive ray trace from RayTracer::traceIndividualRay of
src/raytracer.cpp, embedded with an explicit fuel argument that shrinks at
every recursive call (the C++ recursion has no structural measure: the legacy
alpha branch recurses at an unchanged recursion level); exhausted fuel yields
black, and no claim depends on that branch.  On a scene hit the texture, when
present, overrides the material ambient and diffuse; every light contributes
through the shadow test and illuminate with the normal flipped toward the ray
when needed; with recursion budget a dielectric adds the Fresnel weighted
reflection and, absent total internal reflection, refraction contributions
(the source passes the index pair to fresnel transposed), while a
non-dielectric adds a quarter weighted reflection and, for alpha below one, an
alpha blended straight-through ray at the same recursion level; the
accumulated color is clamped to the unit interval.  With no hit the default
color is returned in full exactly when the recursion level equals the literal
three, and scaled by one tenth otherwise. -/
def RayTracer.traceIndividualRay (rt : RayTracer) (theScene : IScene) :
    ℕ → Ray → ℤ → Color
  | 0, _, _ => black
  | fuel + 1, ray, recursionLevel =>
    let hit := VisibleIShape.findIntersection ray theScene.opaqueObjs
    if hit.t < FLT_MAX then
      let hit := match hit.texture with
        | some tex =>
            let texelColor := tex hit.u hit.v
            { hit with material :=
              { hit.material with ambient := (0.15 : ℝ) • texelColor,
                                  diffuse := texelColor } }
        | none => hit
      let accumulatedColor := theScene.lights.foldl (fun acc light =>
        let normal := if Vec3.dot ray.dir hit.normal > 0 then -hit.normal else hit.normal
        let inShadow := light.pointIsInAShadow hit.interceptPt normal theScene.opaqueObjs
          theScene.eyeFrame
        acc + light.illuminate hit.interceptPt normal hit.material theScene.eyeFrame
          inShadow) black
      let accumulatedColor :=
        if recursionLevel > 0 then
          if hit.material.isDielectric = true then
            let etaPair := if hit.rayStatus = RayStatus.ENTERING then
                ((1 : ℝ), hit.material.dielectricRefractionIndex)
              else (hit.material.dielectricRefractionIndex, (1 : ℝ))
            let etai := etaPair.1
            let etat := etaPair.2
            let kr := fresnel ray.dir hit.normal etat etai
            let kt := 1 - kr
            let reflection := Vec3.normalize (Vec3.reflect ray.dir hit.normal)
            let reflectRay : Ray := ⟨hit.interceptPt + EPSILON • hit.normal, reflection⟩
            let acc1 := accumulatedColor +
              kr • rt.traceIndividualRay theScene fuel reflectRay (recursionLevel - 1)
            if kr < 1 then
              let refraction := Vec3.normalize
                (Vec3.refract ray.dir hit.normal (etat / etai))
              let refractRay : Ray := ⟨hit.interceptPt + EPSILON • (-hit.normal), refraction⟩
              acc1 + kt • rt.traceIndividualRay theScene fuel refractRay (recursionLevel - 1)
            else acc1
          else
            let reflection := Vec3.normalize (Vec3.reflect ray.dir hit.normal)
            let reflectionRay : Ray := ⟨hit.interceptPt + EPSILON • hit.normal, reflection⟩
            let acc1 := accumulatedColor +
              (0.25 : ℝ) • rt.traceIndividualRay theScene fuel reflectionRay
                (recursionLevel - 1)
            if hit.material.alpha < (1 : ℝ) then
              let refractRay : Ray := ⟨hit.interceptPt - EPSILON • hit.normal, ray.dir⟩
              let refractColor := rt.traceIndividualRay theScene fuel refractRay
                recursionLevel
              ((1 : ℝ) - hit.material.alpha) • acc1 + hit.material.alpha • refractColor
            else acc1
        else accumulatedColor
      Vec3.clampScalar accumulatedColor 0 1
    else
      if recursionLevel = 3 then rt.defaultColor
      else (0.1 : ℝ) • rt.defaultColor

/-- Framebuffer state: dimensions, the byte color buffer and the double depth
buffer as flat index maps, and the clear color with its byte form. -/
structure FrameBuffer where
  width : ℤ
  height : ℤ
  colorBuffer : ℤ → ℕ × ℕ × ℕ
  depthBuffer : ℤ → ℝ
  clearColor : Color
  clearColorUB : ℕ × ℕ × ℕ

/-- Window bounds check from FrameBuffer::checkInWindow. -/
def FrameBuffer.checkInWindow (fb : FrameBuffer) (x y : ℤ) : Prop :=
  0 ≤ x ∧ x < fb.width ∧ 0 ≤ y ∧ y < fb.height

instance (fb : FrameBuffer) (x y : ℤ) : Decidable (fb.checkInWindow x y) := by
  unfold FrameBuffer.checkInWindow; infer_instance

/-- Truncating byte cast applied to a clamped and scaled color channel; the
channel is nonnegative there, so the C cast is the floor. -/
def toByte (r : ℝ) : ℕ := ⌊r⌋.toNat

/-- Pixel color write from FrameBuffer::setColor: coordinates outside the
window return the buffer unchanged; otherwise the color is clamped to the
unit interval, scaled to bytes, and stored at the flat index x + y * width. -/
def FrameBuffer.setColor (fb : FrameBuffer) (x y : ℤ) (rgb : Color) : FrameBuffer :=
  if x < 0 ∨ x ≥ fb.width ∨ y < 0 ∨ y ≥ fb.height then fb
  else
    let c := Vec3.clampScalar rgb 0 1
    let bytes := (toByte (c.x * 255), toByte (c.y * 255), toByte (c.z * 255))
    { fb with colorBuffer := fun i => if i = x + y * fb.width then bytes
        else fb.colorBuffer i }

/-- Pixel depth write from FrameBuffer::setDepth: writes at the flat index
y * width + x only when the coordinates pass the window check. -/
def FrameBuffer.setDepth (fb : FrameBuffer) (x y : ℤ) (depth : ℝ) : FrameBuffer :=
  if fb.checkInWindow x y then
    { fb with depthBuffer := fun i => if i = y * fb.width + x then depth
        else fb.depthBuffer i }
  else fb

/-- Componentwise reduction of vector addition on literals. -/
@[simp]
theorem Vec3.mk_add (a b c d e f : ℝ) :
    (⟨a, b, c⟩ + ⟨d, e, f⟩ : Vec3) = ⟨a + d, b + e, c + f⟩ := rfl

/-- Componentwise reduction of vector subtraction on literals. -/
@[simp]
theorem Vec3.mk_sub (a b c d e f : ℝ) :
    (⟨a, b, c⟩ - ⟨d, e, f⟩ : Vec3) = ⟨a - d, b - e, c - f⟩ := rfl

/-- Componentwise reduction of vector negation on literals. -/
@[simp]
theorem Vec3.mk_neg (a b c : ℝ) : (-(⟨a, b, c⟩ : Vec3)) = ⟨-a, -b, -c⟩ := rfl

/-- Componentwise reduction of scalar multiplication on literals. -/
@[simp]
theorem Vec3.mk_smul (r a b c : ℝ) : r • (⟨a, b, c⟩ : Vec3) = ⟨r * a, r * b, r * c⟩ := rfl

/-- Componentwise reduction of vector multiplication on literals. -/
@[simp]
theorem Vec3.mk_mul (a b c d e f : ℝ) :
    (⟨a, b, c⟩ * ⟨d, e, f⟩ : Vec3) = ⟨a * d, b * e, c * f⟩ := rfl

/-- Reduction of the dot product on literals. -/
@[simp]
theorem Vec3.dot_mk (a b c d e f : ℝ) :
    Vec3.dot ⟨a, b, c⟩ ⟨d, e, f⟩ = a * d + b * e + c * f := rfl

/-- First projection of a literal vector. -/
@[simp]
theorem Vec3.x_mk (a b c : ℝ) : (⟨a, b, c⟩ : Vec3).x = a := rfl

/-- Second projection of a literal vector. -/
@[simp]
theorem Vec3.y_mk (a b c : ℝ) : (⟨a, b, c⟩ : Vec3).y = b := rfl

/-- Third projection of a literal vector. -/
@[simp]
theorem Vec3.z_mk (a b c : ℝ) : (⟨a, b, c⟩ : Vec3).z = c := rfl

/-- Dot product with a negated second argument. -/
theorem Vec3.dot_neg_right (a b : Vec3) : Vec3.dot a (-b) = -Vec3.dot a b := by
  cases a; cases b
  simp [Vec3.dot]
  ring

/-- Square root of four. -/
theorem sqrt_four : Real.sqrt 4 = 2 := by
  rw [show (4 : ℝ) = 2 ^ 2 by norm_num, Real.sqrt_sq (by norm_num : (0:ℝ) ≤ 2)]

/-- Square root of nine. -/
theorem sqrt_nine : Real.sqrt 9 = 3 := by
  rw [show (9 : ℝ) = 3 ^ 2 by norm_num, Real.sqrt_sq (by norm_num : (0:ℝ) ≤ 3)]

/-- The sentinel is positive. -/
theorem flt_max_pos : (0 : ℝ) < FLT_MAX := by unfold FLT_MAX; positivity

/-- Length of a scalar multiple. -/
theorem Vec3.length_smul (r : ℝ) (v : Vec3) :
    Vec3.length (r • v) = |r| * Vec3.length v := by
  cases v
  simp only [Vec3.length, Vec3.mk_smul, Vec3.dot_mk]
  rw [show ∀ a b c : ℝ, r * a * (r * a) + r * b * (r * b) + r * c * (r * c) =
      r ^ 2 * (a * a + b * b + c * c) from by intro a b c; ring]
  rw [Real.sqrt_mul (sq_nonneg r), Real.sqrt_sq_eq_abs]

/-- A light source that is switched off contributes the zero color from
illuminate, for every intercept, normal, material, eye frame, and shadow
flag: the positional variant returns black immediately, and the spot variant
stub of the sources returns black unconditionally.  This settles claim C8. -/
theorem illuminate_off_light_black (ls : LightSource) (pt n : Vec3) (mat : Material)
    (frame : Frame) (inShadow : Bool) (hoff : ls.isOn = false) :
    ls.illuminate pt n mat frame inShadow = black := by
  cases ls with
  | positional l =>
      simp only [LightSource.isOn] at hoff
      simp [LightSource.illuminate, PositionalLight.illuminate, hoff]
  | spot l d fov => simp [LightSource.illuminate]

/-- Witness for the off-light claim at a concrete light and query. -/
theorem illuminate_off_light_black_witness :
    LightSource.illuminate
      (LightSource.positional ⟨⟨15, 15, 15⟩, ⟨1, 1, 1⟩, false, true, false, ⟨1, 0, 0⟩⟩)
      ⟨0, 0, 0⟩ ⟨0, 1, 0⟩ defaultMaterial ⟨⟨0, 0, 0⟩, ⟨1, 0, 0⟩, ⟨0, 1, 0⟩, ⟨0, 0, 1⟩⟩
      false = black :=
  illuminate_off_light_black
    (LightSource.positional ⟨⟨15, 15, 15⟩, ⟨1, 1, 1⟩, false, true, false, ⟨1, 0, 0⟩⟩)
    ⟨0, 0, 0⟩ ⟨0, 1, 0⟩ defaultMaterial ⟨⟨0, 0, 0⟩, ⟨1, 0, 0⟩, ⟨0, 1, 0⟩, ⟨0, 0, 1⟩⟩
    false rfl

/-- Out-of-range pixel writes are dropped silently: for coordinates outside
the window, setColor and setDepth return the framebuffer unchanged, leaving
every stored color and depth as it was.  This settles claim C9. -/
theorem framebuffer_out_of_range_noop (fb : FrameBuffer) (x y : ℤ) (rgb : Color)
    (depth : ℝ) (hout : x < 0 ∨ x ≥ fb.width ∨ y < 0 ∨ y ≥ fb.height) :
    fb.setColor x y rgb = fb ∧ fb.setDepth x y depth = fb := by
  constructor
  · unfold FrameBuffer.setColor
    exact if_pos hout
  · unfold FrameBuffer.setDepth
    rw [if_neg]
    intro hin
    obtain ⟨h1, h2, h3, h4⟩ := hin
    rcases hout with h | h | h | h <;> omega

/-- Witness for the out-of-range write claim at a concrete framebuffer. -/
theorem framebuffer_out_of_range_noop_witness :
    FrameBuffer.setColor ⟨2, 2, fun _ => (0, 0, 0), fun _ => 0, black, (0, 0, 0)⟩
        5 0 ⟨1, 0, 0⟩ =
      ⟨2, 2, fun _ => (0, 0, 0), fun _ => 0, black, (0, 0, 0)⟩ ∧
    FrameBuffer.setDepth ⟨2, 2, fun _ => (0, 0, 0), fun _ => 0, black, (0, 0, 0)⟩
        5 0 (1 / 2) =
      ⟨2, 2, fun _ => (0, 0, 0), fun _ => 0, black, (0, 0, 0)⟩ :=
  framebuffer_out_of_range_noop
    ⟨2, 2, fun _ => (0, 0, 0), fun _ => 0, black, (0, 0, 0)⟩ 5 0 ⟨1, 0, 0⟩ (1 / 2)
    (Or.inr (Or.inl (by norm_num)))

/-- Whenever the visible-shape wrapper reports a hit (t below the no-hit
sentinel), the normal in the record opposes the ray: the wrapper flips the
geometric normal exactly when its dot product with the ray direction is
positive, so the reported normal always satisfies dot(dir, normal) ≤ 0.
This settles claim C10. -/
theorem visibleIShape_normal_front_facing (vs : VisibleIShape) (ray : Ray)
    (hitIn : OpaqueHitRecord)
    (hhit : (vs.findClosestIntersection ray hitIn).t < FLT_MAX) :
    Vec3.dot ray.dir (vs.findClosestIntersection ray hitIn).normal ≤ 0 := by
  unfold VisibleIShape.findClosestIntersection at hhit ⊢
  set hr := vs.shape.findClosestIntersection ray
    ⟨FLT_MAX, hitIn.interceptPt, hitIn.normal⟩ with hhr
  by_cases hlt : hr.t < FLT_MAX
  · simp only [if_pos hlt] at hhit ⊢
    by_cases hflip : Vec3.dot ray.dir hr.normal > 0
    · simp only [if_pos hflip]
      rw [Vec3.dot_neg_right]
      linarith
    · simp only [if_neg hflip]
      linarith [not_lt.mp hflip]
  · simp only [if_neg hlt] at hhit
    exact absurd hhit hlt

/-- Witness for the front-facing normal claim: a plane straight ahead of the
ray, whose unflipped normal already opposes the direction. -/
theorem visibleIShape_normal_front_facing_witness :
    (VisibleIShape.findClosestIntersection
        ⟨Shape.plane (IPlane.make ⟨0, 0, 0⟩ ⟨0, 0, 1⟩), defaultMaterial, none⟩
        ⟨⟨0, 0, 1⟩, ⟨0, 0, -1⟩⟩ freshOpaqueHitRecord).t < FLT_MAX ∧
    Vec3.dot (⟨0, 0, -1⟩ : Vec3)
      (VisibleIShape.findClosestIntersection
        ⟨Shape.plane (IPlane.make ⟨0, 0, 0⟩ ⟨0, 0, 1⟩), defaultMaterial, none⟩
        ⟨⟨0, 0, 1⟩, ⟨0, 0, -1⟩⟩ freshOpaqueHitRecord).normal ≤ 0 := by
  have hval : (VisibleIShape.findClosestIntersection
      ⟨Shape.plane (IPlane.make ⟨0, 0, 0⟩ ⟨0, 0, 1⟩), defaultMaterial, none⟩
      ⟨⟨0, 0, 1⟩, ⟨0, 0, -1⟩⟩ freshOpaqueHitRecord).t = 1 := by
    simp only [VisibleIShape.findClosestIntersection, Shape.findClosestIntersection,
      IPlane.findClosestIntersection, IPlane.make, Vec3.normalize, Vec3.length,
      freshOpaqueHitRecord, Vec3.dot_mk, Vec3.mk_sub, Vec3.mk_smul]
    norm_num [Ray.getPoint, FLT_MAX]
  have hlt : (VisibleIShape.findClosestIntersection
      ⟨Shape.plane (IPlane.make ⟨0, 0, 0⟩ ⟨0, 0, 1⟩), defaultMaterial, none⟩
      ⟨⟨0, 0, 1⟩, ⟨0, 0, -1⟩⟩ freshOpaqueHitRecord).t < FLT_MAX := by
    rw [hval]; unfold FLT_MAX; norm_num
  exact ⟨hlt, visibleIShape_normal_front_facing _ _ _ hlt⟩

/-- Amended shadow characterization for claim C2: the shadow query returns
true exactly when the nearest opaque intersection parameter of the feeler ray
is at most the Euclidean distance to the light.  The feeler direction is the
unnormalized vector from the intercept to the raw light position, so the
parameter is measured in units of that vector, not in world distance;
equality counts as shadowed. -/
theorem pointIsInAShadow_iff_param_le_dist (l : PositionalLight)
    (intercept normal : Vec3) (objects : List VisibleIShape) (frame : Frame) :
    l.pointIsInAShadow intercept normal objects frame = true ↔
    (VisibleIShape.findIntersection
        ⟨intercept + EPSILON • normal, l.pos - intercept⟩ objects).t ≤
      Vec3.length (l.pos - intercept) := by
  simp only [PositionalLight.pointIsInAShadow]
  split_ifs with h
  · constructor
    · intro hF; exact absurd hF (by simp)
    · intro hle; exact absurd hle (not_le.mpr h)
  · constructor
    · intro _; exact not_lt.mp h
    · intro _; rfl

/-- Counterexample to claim C2 as stated: with the light two units above the
intercept and a fully opaque plane three units above it, the occluder lies
strictly beyond the light, yet the shadow query reports true, because the
intersection parameter along the unnormalized feeler (about 1.5) is below the
Euclidean distance to the light (2).  The claimed equivalence with an
occluder lying strictly between the point and the light therefore fails. -/
theorem pointIsInAShadow_occluder_beyond_light_cex :
    PositionalLight.pointIsInAShadow
      ⟨⟨0, 2, 0⟩, ⟨1, 1, 1⟩, true, true, false, ⟨1, 0, 0⟩⟩ ⟨0, 0, 0⟩ ⟨0, 1, 0⟩
      [⟨Shape.plane (IPlane.make ⟨0, 3, 0⟩ ⟨0, 1, 0⟩), defaultMaterial, none⟩]
      ⟨⟨0, 0, 0⟩, ⟨1, 0, 0⟩, ⟨0, 1, 0⟩, ⟨0, 0, 1⟩⟩ = true ∧
    Vec3.distance
      (VisibleIShape.findIntersection
        ⟨(⟨0, 0, 0⟩ : Vec3) + EPSILON • (⟨0, 1, 0⟩ : Vec3), (⟨0, 2, 0⟩ : Vec3) - ⟨0, 0, 0⟩⟩
        [⟨Shape.plane (IPlane.make ⟨0, 3, 0⟩ ⟨0, 1, 0⟩), defaultMaterial, none⟩]).interceptPt
      ⟨0, 0, 0⟩ >
      Vec3.length ((⟨0, 2, 0⟩ : Vec3) - ⟨0, 0, 0⟩) := by
  have hfind : VisibleIShape.findIntersection
      ⟨(⟨0, 0, 0⟩ : Vec3) + EPSILON • (⟨0, 1, 0⟩ : Vec3), (⟨0, 2, 0⟩ : Vec3) - ⟨0, 0, 0⟩⟩
      [⟨Shape.plane (IPlane.make ⟨0, 3, 0⟩ ⟨0, 1, 0⟩), defaultMaterial, none⟩] =
      { t := 2999 / 2000
        interceptPt := ⟨0, 3, 0⟩
        normal := ⟨0, -1, 0⟩
        material := defaultMaterial
        texture := none
        u := 0
        v := 0
        rayStatus := RayStatus.ENTERING } := by
    simp only [VisibleIShape.findIntersection, List.foldl,
      VisibleIShape.findClosestIntersection, Shape.findClosestIntersection,
      IPlane.findClosestIntersection, IPlane.make, Vec3.normalize, Vec3.length,
      Vec3.dot_mk, Vec3.mk_sub, Vec3.mk_smul, Vec3.mk_add, EPSILON, Ray.getPoint,
      freshOpaqueHitRecord]
    norm_num [FLT_MAX]
  constructor
  · simp only [PositionalLight.pointIsInAShadow, hfind]
    rw [if_neg]
    simp only [Vec3.mk_sub, Vec3.length, Vec3.dot_mk]
    norm_num [sqrt_four]
  · rw [hfind]
    simp only [Vec3.distance, Vec3.length, Vec3.mk_sub, Vec3.dot_mk]
    norm_num [sqrt_four, sqrt_nine]

/-- Amended no-hit rule for claim C1: on a ray that misses all geometry,
traceIndividualRay returns the full default color exactly when the recursion
level it was called with equals the literal constant three, and the default
color scaled by one tenth at every other level; the comparison is against the
hard coded three, not against the maximum depth the driver was configured
with. -/
theorem traceIndividualRay_miss_default_rule (rt : RayTracer) (theScene : IScene)
    (fuel : ℕ) (ray : Ray) (lvl : ℤ)
    (hmiss : (VisibleIShape.findIntersection ray theScene.opaqueObjs).t = FLT_MAX) :
    rt.traceIndividualRay theScene (fuel + 1) ray lvl =
      (if lvl = 3 then rt.defaultColor else (0.1 : ℝ) • rt.defaultColor) := by
  rw [RayTracer.traceIndividualRay]
  rw [if_neg]
  rw [hmiss]
  exact lt_irrefl FLT_MAX

/-- Witness for the amended no-hit rule: the empty scene at recursion level
three yields the full default color. -/
theorem traceIndividualRay_miss_default_rule_witness :
    RayTracer.traceIndividualRay ⟨⟨1, 1, 1⟩⟩
      ⟨[], [], ⟨⟨0, 0, 0⟩, ⟨1, 0, 0⟩, ⟨0, 1, 0⟩, ⟨0, 0, 1⟩⟩⟩ 1 ⟨⟨0, 0, 0⟩, ⟨0, 0, -1⟩⟩ 3 =
      ⟨1, 1, 1⟩ := by
  have h := traceIndividualRay_miss_default_rule ⟨⟨1, 1, 1⟩⟩
    ⟨[], [], ⟨⟨0, 0, 0⟩, ⟨1, 0, 0⟩, ⟨0, 1, 0⟩, ⟨0, 0, 1⟩⟩⟩ 0 ⟨⟨0, 0, 0⟩, ⟨0, 0, -1⟩⟩ 3
    (by simp [VisibleIShape.findIntersection])
  simpa using h

/-- Counterexample to claim C1 as stated: the driver raytraceScene passes the
user selected reflection count (zero by default, anything from zero to four
from the keyboard) as the top level recursion level, yet on a miss the full
default color is produced only at the literal level three.  At maximum depth
zero, the top level call on a ray that misses all geometry returns the default
scaled by one tenth instead of the full default color. -/
theorem missRay_topLevel_not_default_cex :
    RayTracer.traceIndividualRay ⟨⟨1, 1, 1⟩⟩
        ⟨[], [], ⟨⟨0, 0, 0⟩, ⟨1, 0, 0⟩, ⟨0, 1, 0⟩, ⟨0, 0, 1⟩⟩⟩ 1 ⟨⟨0, 0, 0⟩, ⟨0, 0, -1⟩⟩ 0 =
      (0.1 : ℝ) • (⟨1, 1, 1⟩ : Color) ∧
    RayTracer.traceIndividualRay ⟨⟨1, 1, 1⟩⟩
        ⟨[], [], ⟨⟨0, 0, 0⟩, ⟨1, 0, 0⟩, ⟨0, 1, 0⟩, ⟨0, 0, 1⟩⟩⟩ 1 ⟨⟨0, 0, 0⟩, ⟨0, 0, -1⟩⟩ 0 ≠
      (⟨1, 1, 1⟩ : Color) := by
  have hval : RayTracer.traceIndividualRay ⟨⟨1, 1, 1⟩⟩
      ⟨[], [], ⟨⟨0, 0, 0⟩, ⟨1, 0, 0⟩, ⟨0, 1, 0⟩, ⟨0, 0, 1⟩⟩⟩ 1 ⟨⟨0, 0, 0⟩, ⟨0, 0, -1⟩⟩ 0 =
      (0.1 : ℝ) • (⟨1, 1, 1⟩ : Color) := by
    rw [show (1 : ℕ) = 0 + 1 from rfl, RayTracer.traceIndividualRay]
    rw [if_neg, if_neg]
    · norm_num
    · simp [VisibleIShape.findIntersection]
  refine ⟨hval, ?_⟩
  rw [hval]
  intro hcontr
  have hx := congrArg Vec3.x hcontr
  norm_num at hx

/-- Fresnel at normal incidence for glass from air, settling claim C6: when
the incident direction is parallel to the normal (their dot product is one)
and the indices are one (air) and three halves (glass), the reflectance kr is
one twenty-fifth, hence strictly between zero and one, and the transmittance
defined as one minus kr sums with kr to one exactly; the value is unchanged
when the index pair is transposed, as the recursive tracer passes it. -/
theorem fresnel_normal_incidence_glass (i n : Vec3) (hcos : Vec3.dot i n = 1) :
    fresnel i n 1 (3 / 2) = 1 / 25 ∧
    0 < fresnel i n 1 (3 / 2) ∧ fresnel i n 1 (3 / 2) < 1 ∧
    fresnel i n 1 (3 / 2) + (1 - fresnel i n 1 (3 / 2)) = 1 ∧
    fresnel i n (3 / 2) 1 = fresnel i n 1 (3 / 2) := by
  have hval : fresnel i n 1 (3 / 2) = 1 / 25 := by
    simp only [fresnel, hcos]
    norm_num
  have hval2 : fresnel i n (3 / 2) 1 = 1 / 25 := by
    simp only [fresnel, hcos]
    norm_num
  refine ⟨hval, ?_, ?_, ?_, ?_⟩ <;> rw [hval] <;> try rw [hval2]
  all_goals norm_num

/-- Witness for the Fresnel claim with unit vectors along the z axis. -/
theorem fresnel_normal_incidence_glass_witness :
    fresnel ⟨0, 0, 1⟩ ⟨0, 0, 1⟩ 1 (3 / 2) = 1 / 25 ∧
    0 < fresnel ⟨0, 0, 1⟩ ⟨0, 0, 1⟩ 1 (3 / 2) ∧
    fresnel ⟨0, 0, 1⟩ ⟨0, 0, 1⟩ 1 (3 / 2) < 1 ∧
    fresnel ⟨0, 0, 1⟩ ⟨0, 0, 1⟩ 1 (3 / 2) +
      (1 - fresnel ⟨0, 0, 1⟩ ⟨0, 0, 1⟩ 1 (3 / 2)) = 1 ∧
    fresnel ⟨0, 0, 1⟩ ⟨0, 0, 1⟩ (3 / 2) 1 = fresnel ⟨0, 0, 1⟩ ⟨0, 0, 1⟩ 1 (3 / 2) :=
  fresnel_normal_incidence_glass ⟨0, 0, 1⟩ ⟨0, 0, 1⟩ (by norm_num)

/-- Shape of the root list produced by the quadratic solver: empty, a single
root, or two roots listed in ascending order. -/
theorem quadratic_cases (A B C : ℝ) :
    quadratic A B C = [] ∨ (∃ r, quadratic A B C = [r]) ∨
    (∃ r s, quadratic A B C = [r, s] ∧ r ≤ s) := by
  simp only [quadratic]
  split_ifs with h1 h2 h3 h4 h5
  · exact Or.inl rfl
  · exact Or.inr (Or.inl ⟨_, rfl⟩)
  · exact Or.inl rfl
  · exact Or.inr (Or.inl ⟨_, rfl⟩)
  · exact Or.inr (Or.inr ⟨_, _, rfl, h5⟩)
  · exact Or.inr (Or.inr ⟨_, _, rfl, le_of_not_le h5⟩)

/-- Shape of the quadric intersection list: empty, one hit with a positive
parameter, or two hits with positive parameters in ascending order. -/
theorem findIntersections_cases (s : IQuadricSurface) (ray : Ray) :
    s.findIntersections ray = [] ∨
    (∃ h, s.findIntersections ray = [h] ∧ 0 < h.t) ∨
    (∃ h1 h2, s.findIntersections ray = [h1, h2] ∧ 0 < h1.t ∧ 0 < h2.t ∧
      h1.t ≤ h2.t) := by
  unfold IQuadricSurface.findIntersections
  dsimp only
  rcases quadratic_cases (s.computeAqBqCq ray).1 (s.computeAqBqCq ray).2.1
    (s.computeAqBqCq ray).2.2 with hq | ⟨r, hq⟩ | ⟨r, r2, hq, hrs⟩ <;> rw [hq]
  · exact Or.inl rfl
  · by_cases hr : r > 0
    · refine Or.inr (Or.inl ⟨⟨r, ray.origin + r • ray.dir,
        s.normal (ray.origin + r • ray.dir)⟩, ?_, hr⟩)
      simp [List.filterMap_cons, hr]
    · refine Or.inl ?_
      simp [List.filterMap_cons, hr]
  · by_cases hr : r > 0
    · have hr2 : r2 > 0 := lt_of_lt_of_le hr hrs
      refine Or.inr (Or.inr ⟨⟨r, ray.origin + r • ray.dir,
        s.normal (ray.origin + r • ray.dir)⟩, ⟨r2, ray.origin + r2 • ray.dir,
        s.normal (ray.origin + r2 • ray.dir)⟩, ?_, hr, hr2, hrs⟩)
      simp [List.filterMap_cons, hr, hr2]
    · by_cases hr2 : r2 > 0
      · refine Or.inr (Or.inl ⟨⟨r2, ray.origin + r2 • ray.dir,
          s.normal (ray.origin + r2 • ray.dir)⟩, ?_, hr2⟩)
        simp [List.filterMap_cons, hr, hr2]
      · refine Or.inl ?_
        simp [List.filterMap_cons, hr, hr2]

/-- Amended nearest-hit rule for claim C3, settling it against the quadric
and plane code the claim cites.  The quadric machinery reports only
intersections with a strictly positive parameter and its closest intersection
is the smallest of them, with the sentinel kept when there is none; the
plane, by contrast, accepts any solved parameter that is at least zero, so a
parameter of exactly zero produces a hit there rather than being excluded. -/
theorem closestIntersection_positivity_rule :
    (∀ (s : IQuadricSurface) (ray : Ray), ∀ hr ∈ s.findIntersections ray, 0 < hr.t) ∧
    (∀ (s : IQuadricSurface) (ray : Ray) (hitIn : HitRecord),
      (s.findIntersections ray = [] →
        (s.findClosestIntersection ray hitIn).t = FLT_MAX) ∧
      (∀ hr ∈ s.findIntersections ray,
        0 < (s.findClosestIntersection ray hitIn).t ∧
        (s.findClosestIntersection ray hitIn).t ≤ hr.t ∧
        ∃ hsel ∈ s.findIntersections ray,
          (s.findClosestIntersection ray hitIn).t = hsel.t)) ∧
    (∀ (p : IPlane) (ray : Ray) (hitIn : HitRecord),
      Vec3.dot ray.dir p.n ≠ 0 →
      0 ≤ Vec3.dot (p.a - ray.origin) p.n / Vec3.dot ray.dir p.n →
      (p.findClosestIntersection ray hitIn).t =
        Vec3.dot (p.a - ray.origin) p.n / Vec3.dot ray.dir p.n) := by
  refine ⟨?_, ?_, ?_⟩
  · intro s ray hr hmem
    unfold IQuadricSurface.findIntersections at hmem
    rcases List.mem_filterMap.mp hmem with ⟨a, _, hfa⟩
    by_cases ha : a > 0
    · simp only [if_pos ha, Option.some.injEq] at hfa
      rw [← hfa]
      exact ha
    · simp [if_neg ha] at hfa
  · intro s ray hitIn
    constructor
    · intro hnil
      unfold IQuadricSurface.findClosestIntersection
      rw [hnil]
    · intro hr hmem
      rcases findIntersections_cases s ray with hq | ⟨h, hq, hpos⟩ |
        ⟨h1, h2, hq, hp1, hp2, h12⟩
      · rw [hq] at hmem
        exact absurd hmem (List.not_mem_nil hr)
      · rw [hq] at hmem
        have hreq : hr = h := by simpa using hmem
        unfold IQuadricSurface.findClosestIntersection
        rw [hq]
        simp only [if_pos hpos]
        subst hreq
        exact ⟨hpos, le_refl _, hr, List.mem_singleton.mpr rfl, rfl⟩
      · rw [hq] at hmem
        unfold IQuadricSurface.findClosestIntersection
        rw [hq]
        simp only [if_pos hp1]
        rcases List.mem_cons.mp hmem with hreq | hmem2
        · subst hreq
          exact ⟨hp1, le_refl _, hr, by simp, rfl⟩
        · have hreq : hr = h2 := by simpa using hmem2
          subst hreq
          exact ⟨hp1, h12, h1, by simp, rfl⟩
  · intro p ray hitIn hbot hnn
    unfold IPlane.findClosestIntersection
    rw [if_neg hbot, if_pos hnn]

/-- Counterexample to claim C3 as stated: a ray whose origin lies on the
plane solves to a parameter of exactly zero, and the plane code accepts it
(the test is against zero inclusively), so the returned record carries t = 0
instead of keeping the no-hit sentinel. -/
theorem plane_accepts_zero_t_cex :
    ((IPlane.make ⟨0, 0, 0⟩ ⟨0, 0, 1⟩).findClosestIntersection
        ⟨⟨0, 0, 0⟩, ⟨1, 0, 1⟩⟩ freshHitRecord).t = 0 ∧
    ((IPlane.make ⟨0, 0, 0⟩ ⟨0, 0, 1⟩).findClosestIntersection
        ⟨⟨0, 0, 0⟩, ⟨1, 0, 1⟩⟩ freshHitRecord).t ≠ FLT_MAX := by
  have hval : ((IPlane.make ⟨0, 0, 0⟩ ⟨0, 0, 1⟩).findClosestIntersection
      ⟨⟨0, 0, 0⟩, ⟨1, 0, 1⟩⟩ freshHitRecord).t = 0 := by
    simp only [IPlane.findClosestIntersection, IPlane.make, Vec3.normalize,
      Vec3.length, Vec3.dot_mk, Vec3.mk_sub, Vec3.mk_smul, Ray.getPoint]
    norm_num
  refine ⟨hval, ?_⟩
  rw [hval]
  unfold FLT_MAX
  norm_num

/-- Witness for the amended nearest-hit rule: the plane conjunct applied to a
plane two units ahead of the ray, whose solved parameter is two. -/
theorem closestIntersection_positivity_rule_witness :
    ((IPlane.make ⟨0, 0, 0⟩ ⟨0, 0, 1⟩).findClosestIntersection
        ⟨⟨0, 0, 2⟩, ⟨0, 0, -1⟩⟩ freshHitRecord).t =
      Vec3.dot ((⟨0, 0, 0⟩ : Vec3) - ⟨0, 0, 2⟩) (IPlane.make ⟨0, 0, 0⟩ ⟨0, 0, 1⟩).n /
        Vec3.dot (⟨0, 0, -1⟩ : Vec3) (IPlane.make ⟨0, 0, 0⟩ ⟨0, 0, 1⟩).n :=
  closestIntersection_positivity_rule.2.2 (IPlane.make ⟨0, 0, 0⟩ ⟨0, 0, 1⟩)
    ⟨⟨0, 0, 2⟩, ⟨0, 0, -1⟩⟩ freshHitRecord
    (by simp only [IPlane.make, Vec3.normalize, Vec3.length, Vec3.dot_mk,
          Vec3.mk_smul]
        norm_num)
    (by simp only [IPlane.make, Vec3.normalize, Vec3.length, Vec3.dot_mk,
          Vec3.mk_smul, Vec3.mk_sub]
        norm_num)

/-- Amended clipping rule for claim C4, with the interval open rather than
closed: starting from a fresh record, the clipped cylinder returns the first
quadric root, in ascending order, whose intercept has its y coordinate
strictly inside (center.y - length/2, center.y + length/2); that hit has a
positive parameter and the smallest parameter among all in-bounds roots, and
when no root is strictly in bounds the result keeps the no-hit sentinel. -/
theorem cylinderY_open_interval_clip (c : ICylinderY) (ray : Ray) :
    ((∀ hr ∈ c.asQuadric.findIntersections ray,
        ¬ (c.center.y - c.length / 2 < hr.interceptPt.y ∧
           hr.interceptPt.y < c.center.y + c.length / 2)) →
      (c.findClosestIntersection ray freshHitRecord).t = FLT_MAX) ∧
    (∀ hr ∈ c.asQuadric.findIntersections ray,
      (c.center.y - c.length / 2 < hr.interceptPt.y ∧
       hr.interceptPt.y < c.center.y + c.length / 2) →
      ∃ hsel ∈ c.asQuadric.findIntersections ray,
        c.findClosestIntersection ray freshHitRecord = hsel ∧ 0 < hsel.t ∧
        c.center.y - c.length / 2 < hsel.interceptPt.y ∧
        hsel.interceptPt.y < c.center.y + c.length / 2 ∧ hsel.t ≤ hr.t) := by
  rcases findIntersections_cases c.asQuadric ray with hq | ⟨h, hq, hpos⟩ |
    ⟨h1, h2, hq, hp1, hp2, h12⟩
  · constructor
    · intro _
      unfold ICylinderY.findClosestIntersection
      rw [hq]
    · intro hr hmem
      rw [hq] at hmem
      exact absurd hmem (List.not_mem_nil hr)
  · constructor
    · intro hnone
      have hnh := hnone h (by rw [hq]; exact List.mem_singleton.mpr rfl)
      unfold ICylinderY.findClosestIntersection
      rw [hq]
      simp only [ICylinderY.scanHits]
      rw [if_neg (fun hcontr => hnh ⟨hcontr.2, hcontr.1⟩)]
      rfl
    · intro hr hmem hin
      rw [hq] at hmem
      have hreq : hr = h := by simpa using hmem
      subst hreq
      refine ⟨hr, by rw [hq]; exact List.mem_singleton.mpr rfl, ?_, hpos, hin.1,
        hin.2, le_refl _⟩
      unfold ICylinderY.findClosestIntersection
      rw [hq]
      simp only [ICylinderY.scanHits]
      rw [if_pos ⟨hin.2, hin.1⟩]
  · constructor
    · intro hnone
      have hn1 := hnone h1 (by rw [hq]; simp)
      have hn2 := hnone h2 (by rw [hq]; simp)
      unfold ICylinderY.findClosestIntersection
      rw [hq]
      simp only [ICylinderY.scanHits]
      rw [if_neg (fun hcontr => hn1 ⟨hcontr.2, hcontr.1⟩),
        if_neg (fun hcontr => hn2 ⟨hcontr.2, hcontr.1⟩)]
      rfl
    · intro hr hmem hin
      rw [hq] at hmem
      by_cases hP1 : h1.interceptPt.y < c.center.y + c.length / 2 ∧
          c.center.y - c.length / 2 < h1.interceptPt.y
      · refine ⟨h1, by rw [hq]; simp, ?_, hp1, hP1.2, hP1.1, ?_⟩
        · unfold ICylinderY.findClosestIntersection
          rw [hq]
          simp only [ICylinderY.scanHits]
          rw [if_pos hP1]
        · rcases List.mem_cons.mp hmem with hreq | hmem2
          · subst hreq
            exact le_refl _
          · have hreq : hr = h2 := by simpa using hmem2
            subst hreq
            exact h12
      · have hreq : hr = h2 := by
          rcases List.mem_cons.mp hmem with hreq | hmem2
          · exact absurd ⟨hreq ▸ hin.2, hreq ▸ hin.1⟩ hP1
          · simpa using hmem2
        subst hreq
        refine ⟨hr, by rw [hq]; simp, ?_, hp2, hin.1, hin.2, le_refl _⟩
        unfold ICylinderY.findClosestIntersection
        rw [hq]
        simp only [ICylinderY.scanHits]
        rw [if_neg hP1, if_pos ⟨hin.2, hin.1⟩]

/-- Evaluation helper: a unit radius, length two cylinder at the origin, hit
by a ray parallel to the x axis from (2, y0, 0), produces the two quadric
roots one and three with intercepts on either side of the tube. -/
theorem cylY_unit_hits (y0 : ℝ) :
    (ICylinderY.asQuadric ⟨⟨0, 0, 0⟩, 1, 2⟩).findIntersections
        ⟨⟨2, y0, 0⟩, ⟨-1, 0, 0⟩⟩ =
      [⟨1, ⟨1, y0, 0⟩, ⟨1, 0, 0⟩⟩, ⟨3, ⟨-1, y0, 0⟩, ⟨-1, 0, 0⟩⟩] := by
  have hcoef : (ICylinderY.asQuadric ⟨⟨0, 0, 0⟩, 1, 2⟩).computeAqBqCq
      ⟨⟨2, y0, 0⟩, ⟨-1, 0, 0⟩⟩ = (1, -4, 3) := by
    simp only [ICylinderY.asQuadric, IQuadricSurface.computeAqBqCq,
      QuadricParameters.cylinderYQParams, Vec3.mk_sub]
    norm_num
  have hq : quadratic 1 (-4) 3 = [1, 3] := by
    simp only [quadratic]
    norm_num [sqrt_four]
  unfold IQuadricSurface.findIntersections
  rw [hcoef]
  norm_num [hq, List.filterMap_cons]
  constructor
  · simp only [ICylinderY.asQuadric, IQuadricSurface.normal,
      QuadricParameters.cylinderYQParams, Vec3.mk_add, Vec3.mk_smul, Vec3.mk_sub,
      Vec3.normalize, Vec3.length, Vec3.dot_mk]
    norm_num [sqrt_four]
  · simp only [ICylinderY.asQuadric, IQuadricSurface.normal,
      QuadricParameters.cylinderYQParams, Vec3.mk_add, Vec3.mk_smul, Vec3.mk_sub,
      Vec3.normalize, Vec3.length, Vec3.dot_mk]
    norm_num [sqrt_four]

/-- Counterexample to claim C4 as stated: a ray grazing the top rim of the
cylinder has its first positive root at a point whose y coordinate equals
center.y + length/2 exactly, inside the closed interval the claim describes,
yet the code rejects it (the bound test is strict) and reports no hit. -/
theorem cylinderY_rim_excluded_cex :
    (ICylinderY.findClosestIntersection ⟨⟨0, 0, 0⟩, 1, 2⟩ ⟨⟨2, 1, 0⟩, ⟨-1, 0, 0⟩⟩
        freshHitRecord).t = FLT_MAX ∧
    ∃ hr ∈ (ICylinderY.asQuadric ⟨⟨0, 0, 0⟩, 1, 2⟩).findIntersections
        ⟨⟨2, 1, 0⟩, ⟨-1, 0, 0⟩⟩,
      0 < hr.t ∧
      (⟨⟨0, 0, 0⟩, 1, 2⟩ : ICylinderY).center.y -
          (⟨⟨0, 0, 0⟩, 1, 2⟩ : ICylinderY).length / 2 ≤ hr.interceptPt.y ∧
      hr.interceptPt.y ≤ (⟨⟨0, 0, 0⟩, 1, 2⟩ : ICylinderY).center.y +
          (⟨⟨0, 0, 0⟩, 1, 2⟩ : ICylinderY).length / 2 := by
  constructor
  · unfold ICylinderY.findClosestIntersection
    rw [cylY_unit_hits 1]
    norm_num [ICylinderY.scanHits]
    rfl
  · refine ⟨⟨1, ⟨1, 1, 0⟩, ⟨1, 0, 0⟩⟩, ?_, ?_, ?_, ?_⟩
    · rw [cylY_unit_hits 1]
      simp
    · norm_num
    · norm_num
    · norm_num

/-- Witness for the amended clipping rule: the same cylinder hit through its
middle, where the first root at y = 0 lies strictly inside the open extent
and is returned. -/
theorem cylinderY_open_interval_clip_witness :
    ∃ hsel ∈ (ICylinderY.asQuadric ⟨⟨0, 0, 0⟩, 1, 2⟩).findIntersections
        ⟨⟨2, 0, 0⟩, ⟨-1, 0, 0⟩⟩,
      ICylinderY.findClosestIntersection ⟨⟨0, 0, 0⟩, 1, 2⟩ ⟨⟨2, 0, 0⟩, ⟨-1, 0, 0⟩⟩
          freshHitRecord = hsel ∧ 0 < hsel.t ∧
      (⟨⟨0, 0, 0⟩, 1, 2⟩ : ICylinderY).center.y -
          (⟨⟨0, 0, 0⟩, 1, 2⟩ : ICylinderY).length / 2 < hsel.interceptPt.y ∧
      hsel.interceptPt.y < (⟨⟨0, 0, 0⟩, 1, 2⟩ : ICylinderY).center.y +
          (⟨⟨0, 0, 0⟩, 1, 2⟩ : ICylinderY).length / 2 ∧
      hsel.t ≤ (⟨1, ⟨1, 0, 0⟩, ⟨1, 0, 0⟩⟩ : HitRecord).t :=
  (cylinderY_open_interval_clip ⟨⟨0, 0, 0⟩, 1, 2⟩ ⟨⟨2, 0, 0⟩, ⟨-1, 0, 0⟩⟩).2
    ⟨1, ⟨1, 0, 0⟩, ⟨1, 0, 0⟩⟩
    (by rw [cylY_unit_hits 0]; simp)
    (by constructor <;> norm_num)

/-- Reduction of a strict comparison choice to the minimum. -/
theorem strict_ite_min (a b : ℝ) : (if a < b then a else b) = min a b := by
  split_ifs with h
  · exact (min_eq_left (le_of_lt h)).symm
  · exact (min_eq_right (le_of_not_lt h)).symm

/-- Nearest-of-three rule for claim C5: the closed cylinder evaluates the open
cylinder and its two caps independently on fresh records and returns the
record with the globally smallest t, starting from the sentinel, so the
resulting t is the minimum of the sentinel and the three sub-results; when
the result is an actual hit it is one of the three sub-results wholesale, and
when none of the three sub-surfaces is hit the result keeps the sentinel. -/
theorem closedCylinderY_nearest_of_three (cc : IClosedCylinderY) (ray : Ray)
    (hitIn : HitRecord) :
    ((cc.findClosestIntersection ray hitIn).t =
      min ((cc.bottomDisk.findClosestIntersection ray freshHitRecord).t)
        (min ((cc.topDisk.findClosestIntersection ray freshHitRecord).t)
          (min ((cc.asCylinder.findClosestIntersection ray freshHitRecord).t)
            FLT_MAX))) ∧
    ((cc.findClosestIntersection ray hitIn).t < FLT_MAX →
      (cc.findClosestIntersection ray hitIn =
          cc.asCylinder.findClosestIntersection ray freshHitRecord ∨
        cc.findClosestIntersection ray hitIn =
          cc.topDisk.findClosestIntersection ray freshHitRecord ∨
        cc.findClosestIntersection ray hitIn =
          cc.bottomDisk.findClosestIntersection ray freshHitRecord)) ∧
    (((cc.asCylinder.findClosestIntersection ray freshHitRecord).t = FLT_MAX ∧
      (cc.topDisk.findClosestIntersection ray freshHitRecord).t = FLT_MAX ∧
      (cc.bottomDisk.findClosestIntersection ray freshHitRecord).t = FLT_MAX) →
      (cc.findClosestIntersection ray hitIn).t = FLT_MAX) := by
  refine ⟨?_, ?_, ?_⟩
  · unfold IClosedCylinderY.findClosestIntersection
    dsimp only
    simp only [apply_ite HitRecord.t]
    rw [strict_ite_min, strict_ite_min, strict_ite_min]
  · unfold IClosedCylinderY.findClosestIntersection
    dsimp only
    split_ifs with c1 c2 c3 c4 c5 c6 c7 <;> intro hlt <;>
      first
        | exact Or.inl rfl
        | exact Or.inr (Or.inl rfl)
        | exact Or.inr (Or.inr rfl)
        | (dsimp only at hlt; exact absurd hlt (lt_irrefl _))
  · unfold IClosedCylinderY.findClosestIntersection
    dsimp only
    split_ifs with c1 c2 c3 c4 c5 c6 c7 <;> intro hall <;>
      obtain ⟨ha, hb, hc⟩ := hall <;>
      first | exact ha | exact hb | exact hc | rfl

/-- Witness for the nearest-of-three rule: a ray fired straight down the axis
misses the open tube (its quadratic degenerates), strikes the top cap at
parameter four and the bottom cap at parameter six, and the returned record
is the top cap hit. -/
theorem closedCylinderY_nearest_of_three_witness :
    (IClosedCylinderY.findClosestIntersection ⟨⟨0, 0, 0⟩, 1, 2⟩
        ⟨⟨0, 5, 0⟩, ⟨0, -1, 0⟩⟩ freshHitRecord).t < FLT_MAX ∧
    (IClosedCylinderY.findClosestIntersection ⟨⟨0, 0, 0⟩, 1, 2⟩
        ⟨⟨0, 5, 0⟩, ⟨0, -1, 0⟩⟩ freshHitRecord =
        (IClosedCylinderY.asCylinder ⟨⟨0, 0, 0⟩, 1, 2⟩).findClosestIntersection
          ⟨⟨0, 5, 0⟩, ⟨0, -1, 0⟩⟩ freshHitRecord ∨
      IClosedCylinderY.findClosestIntersection ⟨⟨0, 0, 0⟩, 1, 2⟩
        ⟨⟨0, 5, 0⟩, ⟨0, -1, 0⟩⟩ freshHitRecord =
        (IClosedCylinderY.topDisk ⟨⟨0, 0, 0⟩, 1, 2⟩).findClosestIntersection
          ⟨⟨0, 5, 0⟩, ⟨0, -1, 0⟩⟩ freshHitRecord ∨
      IClosedCylinderY.findClosestIntersection ⟨⟨0, 0, 0⟩, 1, 2⟩
        ⟨⟨0, 5, 0⟩, ⟨0, -1, 0⟩⟩ freshHitRecord =
        (IClosedCylinderY.bottomDisk ⟨⟨0, 0, 0⟩, 1, 2⟩).findClosestIntersection
          ⟨⟨0, 5, 0⟩, ⟨0, -1, 0⟩⟩ freshHitRecord) := by
  have hh0 : (IClosedCylinderY.asCylinder ⟨⟨0, 0, 0⟩, 1, 2⟩).findClosestIntersection
      ⟨⟨0, 5, 0⟩, ⟨0, -1, 0⟩⟩ freshHitRecord = freshHitRecord := by
    have hcoef : (ICylinderY.asQuadric ⟨⟨0, 0, 0⟩, 1, 2⟩).computeAqBqCq
        ⟨⟨0, 5, 0⟩, ⟨0, -1, 0⟩⟩ = (0, 0, -1) := by
      simp only [ICylinderY.asQuadric, IQuadricSurface.computeAqBqCq,
        QuadricParameters.cylinderYQParams, Vec3.mk_sub]
      norm_num
    have hhits : (ICylinderY.asQuadric ⟨⟨0, 0, 0⟩, 1, 2⟩).findIntersections
        ⟨⟨0, 5, 0⟩, ⟨0, -1, 0⟩⟩ = [] := by
      unfold IQuadricSurface.findIntersections
      rw [hcoef]
      norm_num [quadratic]
    show (IClosedCylinderY.asCylinder ⟨⟨0, 0, 0⟩, 1, 2⟩).findClosestIntersection
      ⟨⟨0, 5, 0⟩, ⟨0, -1, 0⟩⟩ freshHitRecord = freshHitRecord
    unfold ICylinderY.findClosestIntersection
    rw [show IClosedCylinderY.asCylinder ⟨⟨0, 0, 0⟩, 1, 2⟩ =
      (⟨⟨0, 0, 0⟩, 1, 2⟩ : ICylinderY) from rfl, hhits]
    rfl
  have hh1 : (IClosedCylinderY.topDisk ⟨⟨0, 0, 0⟩, 1, 2⟩).findClosestIntersection
      ⟨⟨0, 5, 0⟩, ⟨0, -1, 0⟩⟩ freshHitRecord = ⟨4, ⟨0, 1, 0⟩, ⟨0, 1, 0⟩⟩ := by
    simp only [IClosedCylinderY.topDisk, IDisk.make, IDisk.findClosestIntersection,
      IPlane.make, IPlane.findClosestIntersection, Vec3.normalize, Vec3.length,
      Vec3.dot_mk, Vec3.mk_sub, Vec3.mk_smul, Vec3.mk_add, Ray.getPoint,
      Vec3.distance, freshHitRecord]
    norm_num [FLT_MAX]
  have hh2 : (IClosedCylinderY.bottomDisk ⟨⟨0, 0, 0⟩, 1, 2⟩).findClosestIntersection
      ⟨⟨0, 5, 0⟩, ⟨0, -1, 0⟩⟩ freshHitRecord = ⟨6, ⟨0, -1, 0⟩, ⟨0, -1, 0⟩⟩ := by
    simp only [IClosedCylinderY.bottomDisk, IDisk.make, IDisk.findClosestIntersection,
      IPlane.make, IPlane.findClosestIntersection, Vec3.normalize, Vec3.length,
      Vec3.dot_mk, Vec3.mk_sub, Vec3.mk_smul, Vec3.mk_add, Ray.getPoint,
      Vec3.distance, freshHitRecord]
    norm_num [FLT_MAX]
  have hval : (IClosedCylinderY.findClosestIntersection ⟨⟨0, 0, 0⟩, 1, 2⟩
      ⟨⟨0, 5, 0⟩, ⟨0, -1, 0⟩⟩ freshHitRecord) = ⟨4, ⟨0, 1, 0⟩, ⟨0, 1, 0⟩⟩ := by
    unfold IClosedCylinderY.findClosestIntersection
    rw [hh0, hh1, hh2]
    norm_num [freshHitRecord, FLT_MAX]
  have hlt : (IClosedCylinderY.findClosestIntersection ⟨⟨0, 0, 0⟩, 1, 2⟩
      ⟨⟨0, 5, 0⟩, ⟨0, -1, 0⟩⟩ freshHitRecord).t < FLT_MAX := by
    rw [hval]
    norm_num [FLT_MAX]
  exact ⟨hlt, (closedCylinderY_nearest_of_three ⟨⟨0, 0, 0⟩, 1, 2⟩
    ⟨⟨0, 5, 0⟩, ⟨0, -1, 0⟩⟩ freshHitRecord).2.1 hlt⟩

/-- Barycentric area identity for claim C7: for a point strictly inside the
triangle (a positive convex combination of the vertices, hence on the
triangle plane and within its bounds), the three sub-triangle areas formed
with the vertex pairs sum exactly to the area of the triangle, and the inside
test of the sources accepts the point.  This settles claim C7. -/
theorem triangle_inside_barycentric_area (A B C P : Vec3) (a b c : ℝ)
    (ha : 0 < a) (hb : 0 < b) (hc : 0 < c) (hsum : a + b + c = 1)
    (hP : P = a • A + b • B + c • C) :
    ITriangle.inside ⟨A, B, C⟩ P = true ∧
    areaOfTriangle A B P + areaOfTriangle A P C + areaOfTriangle P B C =
      areaOfTriangle A B C := by
  have haeq : a = 1 - b - c := by linarith
  subst haeq
  subst hP
  have h1 : Vec3.cross (B - A) (((1 - b - c) • A + b • B + c • C) - A) =
      c • Vec3.cross (B - A) (C - A) := by
    cases A; cases B; cases C
    simp only [Vec3.mk_smul, Vec3.mk_add, Vec3.mk_sub, Vec3.cross]
    ext <;> dsimp only <;> ring
  have h2 : Vec3.cross (((1 - b - c) • A + b • B + c • C) - A) (C - A) =
      b • Vec3.cross (B - A) (C - A) := by
    cases A; cases B; cases C
    simp only [Vec3.mk_smul, Vec3.mk_add, Vec3.mk_sub, Vec3.cross]
    ext <;> dsimp only <;> ring
  have h3 : Vec3.cross (B - ((1 - b - c) • A + b • B + c • C))
      (C - ((1 - b - c) • A + b • B + c • C)) =
      (1 - b - c) • Vec3.cross (B - A) (C - A) := by
    cases A; cases B; cases C
    simp only [Vec3.mk_smul, Vec3.mk_add, Vec3.mk_sub, Vec3.cross]
    ext <;> dsimp only <;> ring
  have harea : areaOfTriangle A B ((1 - b - c) • A + b • B + c • C) +
      areaOfTriangle A ((1 - b - c) • A + b • B + c • C) C +
      areaOfTriangle ((1 - b - c) • A + b • B + c • C) B C =
      areaOfTriangle A B C := by
    unfold areaOfTriangle areaOfParallelogram
    rw [h1, h2, h3, Vec3.length_smul, Vec3.length_smul, Vec3.length_smul,
      abs_of_pos hc, abs_of_pos hb, abs_of_pos ha]
    ring
  refine ⟨?_, harea⟩
  unfold ITriangle.inside
  rw [decide_eq_true_eq]
  unfold approximatelyEqual
  dsimp only
  rw [harea]
  simp only [sub_self, abs_zero, EPSILON]
  norm_num

/-- Witness for the barycentric area identity at a concrete right triangle
and interior point. -/
theorem triangle_inside_barycentric_area_witness :
    ITriangle.inside ⟨⟨0, 0, 0⟩, ⟨1, 0, 0⟩, ⟨0, 1, 0⟩⟩ ⟨1 / 4, 1 / 4, 0⟩ = true ∧
    areaOfTriangle ⟨0, 0, 0⟩ ⟨1, 0, 0⟩ ⟨1 / 4, 1 / 4, 0⟩ +
      areaOfTriangle ⟨0, 0, 0⟩ ⟨1 / 4, 1 / 4, 0⟩ ⟨0, 1, 0⟩ +
      areaOfTriangle ⟨1 / 4, 1 / 4, 0⟩ ⟨1, 0, 0⟩ ⟨0, 1, 0⟩ =
      areaOfTriangle ⟨0, 0, 0⟩ ⟨1, 0, 0⟩ ⟨0, 1, 0⟩ :=
  triangle_inside_barycentric_area ⟨0, 0, 0⟩ ⟨1, 0, 0⟩ ⟨0, 1, 0⟩ ⟨1 / 4, 1 / 4, 0⟩
    (1 / 2) (1 / 4) (1 / 4) (by norm_num) (by norm_num) (by norm_num) (by norm_num)
    (by simp only [Vec3.mk_smul, Vec3.mk_add]; norm_num)
